import Mathlib

/-!
Shallow embedding of the FuturEd dropout-risk pipeline
(`main.py`, `prediccion_alumno.py`, `app.py`, `generar_alumnos_en_riesgo.py`).

Python dictionaries are modelled as association lists, Python `None` as an
explicit `null` scalar, floating point probabilities as rationals, and
fallible Python code as `Except String`.
-/

namespace FuturEd

/-! ## Risk classification (`_predict_single_doc`, `predecir_por_matricula`) -/

/-- Python `round` rounds to the nearest integer with ties to even. -/
def roundHalfEven (q : ℚ) : ℤ :=
  let f := ⌊q⌋
  let r := q - f
  if r < 1/2 then f
  else if r > 1/2 then f + 1
  else if f % 2 = 0 then f else f + 1

/-- Python `round(x, 2)`: round to two decimal places. -/
def round2 (q : ℚ) : ℚ := (roundHalfEven (q * 100) : ℚ) / 100

/-- Percentage `porcentaje = round(prob * 100, 2)` (main.py line 160,
`riesgo = round(riesgo_pred * 100, 2)` prediccion_alumno.py line 159). -/
def riesgoPct (prob : ℚ) : ℚ := round2 (prob * 100)

/-- The four risk bands of the `if porcentaje >= 80 / >= 60 / >= 40 / else`
chain (main.py lines 162-173, prediccion_alumno.py lines 161-172). -/
inductive Tier where
  | high
  | mediumHigh
  | mediumLow
  | low
deriving DecidableEq, Repr

/-- Band selected by the threshold chain of `_predict_single_doc`. -/
def tierOf (porcentaje : ℚ) : Tier :=
  if porcentaje ≥ 80 then .high
  else if porcentaje ≥ 60 then .mediumHigh
  else if porcentaje ≥ 40 then .mediumLow
  else .low

/-- Motive and recommendation strings chosen by the same chain
(main.py lines 162-173). -/
def motivoRecomendacion (porcentaje : ℚ) : String × String :=
  if porcentaje ≥ 80 then
    ("Alto riesgo: múltiples factores académicos y personales",
     "Asesoría académica urgente y apoyo psicológico")
  else if porcentaje ≥ 60 then
    ("Riesgo medio: bajo promedio o problemas personales",
     "Tutoría y monitoreo continuo")
  else if porcentaje ≥ 40 then
    ("Riesgo leve: dificultad para estudiar o motivación baja",
     "Seguimiento por tutor y actividades motivacionales")
  else
    ("Sin riesgo aparente", "Mantener seguimiento regular")

/-- Full classification step: percentage, band, motive, recommendation
(main.py lines 159-173). -/
def clasificar (prob : ℚ) : ℚ × Tier × String × String :=
  let porcentaje := riesgoPct prob
  (porcentaje, tierOf porcentaje, motivoRecomendacion porcentaje)

/-! ## Feature normalizer (`_normalize_document_for_model`, `normalizar_documento`) -/

/-- A Python scalar value as it occurs inside a survey section. -/
inductive Scalar where
  | null
  | str (s : String)
  | int (n : ℤ)
deriving DecidableEq, Repr

/-- A top-level value of a survey document: either a scalar or a nested
dictionary (section).  Calling `.get` on a scalar raises `AttributeError`
in Python. -/
inductive SecVal where
  | scalar (v : Scalar)
  | dict (entries : List (String × Scalar))
deriving DecidableEq, Repr

/-- A survey document: a Python dict from field name to value. -/
abbrev Document := List (String × SecVal)

/-- Python `doc.get(k, {})`: the section value when the key is present (whatever its
type), otherwise an empty dict. -/
def getSection (doc : Document) (k : String) : SecVal :=
  (doc.lookup k).getD (SecVal.dict [])

/-- Calling `.get` on the fetched section: succeeds only on a dict value;
on a scalar (including `None`) Python raises `AttributeError`. -/
def asDict : SecVal → Except String (List (String × Scalar))
  | SecVal.dict m => .ok m
  | SecVal.scalar _ => .error "AttributeError"

/-- Python `section.get(field)`: `None` when the field is absent. -/
def dictGet (m : List (String × Scalar)) (k : String) : Scalar :=
  (m.lookup k).getD Scalar.null

/-- Lookup `doc.get(k)` for the flat identity fields, wrapped as a `SecVal`. -/
def docGet (doc : Document) (k : String) : SecVal :=
  (doc.lookup k).getD (SecVal.scalar Scalar.null)

/-- Function `_normalize_document_for_model` (main.py lines 106-125): fetch the three
sections with empty-dict defaults and build the flat feature record. -/
def normalize_document_for_model (doc : Document) :
    Except String (List (String × SecVal)) := do
  let aspectos ← asDict (getSection doc "aspectos_socioeconomicos")
  let salud ← asDict (getSection doc "condiciones_salud")
  let academico ← asDict (getSection doc "analisis_academico")
  pure [
    ("id_alumno", docGet doc "id_alumno"),
    ("matricula", docGet doc "matricula"),
    ("trabaja", SecVal.scalar (dictGet aspectos "trabaja")),
    ("ingreso_mensual", SecVal.scalar (dictGet aspectos "ingreso_mensual")),
    ("padecimiento_cronico", SecVal.scalar (dictGet salud "padecimiento_cronico")),
    ("atencion_psicologica", SecVal.scalar (dictGet salud "atencion_psicologica")),
    ("horas_sueno", SecVal.scalar (dictGet salud "horas_sueno")),
    ("alimentacion", SecVal.scalar (dictGet salud "alimentacion")),
    ("materias_reprobadas", SecVal.scalar (dictGet academico "materias_reprobadas")),
    ("promedio_previo", SecVal.scalar (dictGet academico "promedio_previo")),
    ("motivacion", SecVal.scalar (dictGet academico "motivacion")),
    ("dificultad_estudio", SecVal.scalar (dictGet academico "dificultad_estudio")),
    ("expectativa_terminar", SecVal.scalar (dictGet academico "expectativa_terminar"))]

/-- The fixed schema: feature name, source section, source field. -/
def esquema : List (String × String × String) :=
  [("trabaja", "aspectos_socioeconomicos", "trabaja"),
   ("ingreso_mensual", "aspectos_socioeconomicos", "ingreso_mensual"),
   ("padecimiento_cronico", "condiciones_salud", "padecimiento_cronico"),
   ("atencion_psicologica", "condiciones_salud", "atencion_psicologica"),
   ("horas_sueno", "condiciones_salud", "horas_sueno"),
   ("alimentacion", "condiciones_salud", "alimentacion"),
   ("materias_reprobadas", "analisis_academico", "materias_reprobadas"),
   ("promedio_previo", "analisis_academico", "promedio_previo"),
   ("motivacion", "analisis_academico", "motivacion"),
   ("dificultad_estudio", "analisis_academico", "dificultad_estudio"),
   ("expectativa_terminar", "analisis_academico", "expectativa_terminar")]

/-- The entries of a named section of a document, empty when the section is
absent or not a dict. -/
def sectionEntries (doc : Document) (k : String) : List (String × Scalar) :=
  match doc.lookup k with
  | some (SecVal.dict m) => m
  | _ => []

/-- True unless the key is present in the document with a scalar (non-dict)
value — the shape on which Python's `.get` chain raises. -/
def dictShaped (doc : Document) (k : String) : Bool :=
  match doc.lookup k with
  | some (SecVal.scalar _) => false
  | _ => true

/-! ## Boolean-like literal mapping (`df[col].map({...}).fillna(0)`) -/

/-- The literal dict of main.py line 137: `{"Sí": 1, "Si": 1, "No": 0}`. -/
def siNoDictMain : List (String × ℤ) := [("Sí", 1), ("Si", 1), ("No", 0)]

/-- The literal dict of prediccion_alumno.py line 67: `{"Sí": 1, "No": 0}`. -/
def siNoDictPA : List (String × ℤ) := [("Sí", 1), ("No", 0)]

/-- Applying `df[col].map(d).fillna(0).astype(int)` to one cell: values not in
the dict (and `None`) become `NaN` and are then filled with `0`. -/
def mapSiNo (d : List (String × ℤ)) (v : Option String) : ℤ :=
  match v with
  | none => 0
  | some s => (d.lookup s).getD 0

/-! ## Categorical encoders (`LabelEncoder` application) -/

/-- Transform `le.transform([v])[0]`: the index of `v` in the fitted class list;
`ValueError` when `v` was never seen. -/
def leTransform (classes : List String) (v : String) : Except String ℕ :=
  match classes.indexOf? v with
  | some i => .ok i
  | none => .error "ValueError"

/-- Encoder application in `preparar_una_encuesta`
(prediccion_alumno.py lines 71-83): `None` becomes `"NA"`; an unseen value is
replaced by `"NA"` when that class was fitted, else by `classes_[0]` (an
`IndexError` escapes when the vocabulary is empty, since that line is outside
the `try`); the final `transform` falls back to `0` on failure. -/
def encodePA (classes : List String) (raw : Option String) : Except String ℤ :=
  let val := match raw with
    | some s => s
    | none => "NA"
  if classes.contains val then
    match leTransform classes val with
    | .ok i => .ok (i : ℤ)
    | .error _ => .ok 0
  else if classes.contains "NA" then
    match leTransform classes "NA" with
    | .ok i => .ok (i : ℤ)
    | .error _ => .ok 0
  else
    match classes.head? with
    | none => .error "IndexError"
    | some c =>
      match leTransform classes c with
      | .ok i => .ok (i : ℤ)
      | .error _ => .ok 0

/-- Encoder application in `_prepare_X_from_document` (main.py lines 141-146):
`df[col].astype(str)` renders `None` as `"None"`, then
`try: le.transform(...) except: df[col] = 0`. -/
def encodeMain (classes : List String) (raw : Option String) : ℤ :=
  let val := match raw with
    | some s => s
    | none => "None"
  match leTransform classes val with
  | .ok i => (i : ℤ)
  | .error _ => 0

/-- Modelled from the spec (§4.2), for comparison with the code: the fallback
code the spec promises for a null/unseen value — the code of the designated
`"NA"` placeholder if the registry trained one, else the code of the first
class in the fitted vocabulary, else `0`. -/
def fallbackSpec (classes : List String) : ℤ :=
  match classes.indexOf? "NA" with
  | some i => (i : ℤ)
  | none => 0

/-! ## Feature aligner (main.py lines 148-153, prediccion_alumno.py 149-152) -/

/-- Loop `for col in feature_names: if col not in df.columns: df[col] = 0` —
append a zero column for every expected column the record lacks. -/
def extendCols (rec : List (String × ℤ)) : List String → List (String × ℤ)
  | [] => rec
  | c :: cs =>
    extendCols (if (rec.lookup c).isSome then rec else rec ++ [(c, 0)]) cs

/-- Projection `df = df[feature_names]` — project onto the expected columns in order. -/
def projectCols (rec : List (String × ℤ)) (cols : List String) :
    List (String × ℤ) :=
  cols.map (fun c => (c, (rec.lookup c).getD 0))

/-- The feature aligner: extend with zero columns, then reorder/drop. -/
def alignColumns (rec : List (String × ℤ)) (cols : List String) :
    List (String × ℤ) :=
  projectCols (extendCols rec cols) cols

/-! ## Result synchronizer (`db.predicciones.update_one(..., upsert=True)`,
`bulk_write` of `UpdateOne` in predict_batch) -/

/-- A stored prediction document: the identity key `id_alumno` plus the
remaining fields. -/
structure PredDoc where
  id_alumno : String
  fields : List (String × String)
deriving DecidableEq, Repr

/-- Set one field of a document, Mongo `$set` style: overwrite the first
occurrence or append. -/
def setKey : List (String × String) → String → String → List (String × String)
  | [], k, v => [(k, v)]
  | (k', v') :: t, k, v =>
    if k' = k then (k, v) :: t else (k', v') :: setKey t k v

/-- Mongo `$set` with a whole payload of fields. -/
def mongoSet (fields payload : List (String × String)) :
    List (String × String) :=
  payload.foldl (fun acc kv => setKey acc kv.1 kv.2) fields

/-- Mongo `update_one({"id_alumno": k}, {"$set": payload}, upsert=True)`: update the
first matching document, or insert a fresh one built from the filter plus the
payload. -/
def updateOneUpsert (coll : List PredDoc) (k : String)
    (payload : List (String × String)) : List PredDoc :=
  match coll with
  | [] => [⟨k, mongoSet [] payload⟩]
  | d :: ds =>
    if d.id_alumno = k then ⟨d.id_alumno, mongoSet d.fields payload⟩ :: ds
    else d :: updateOneUpsert ds k payload

/-- Number of stored documents for a given student id. -/
def countId (coll : List PredDoc) (k : String) : ℕ :=
  (coll.filter (fun d => d.id_alumno = k)).length

/-! ## Batch prediction and synchronization (`predict_batch`, main.py 243-275) -/

/-- The dict returned by `predict_batch` when saving: processed count,
`modified_count` of the bulk write, and number of upserted ids. -/
structure BatchSummary where
  procesadas : ℕ
  modified : ℕ
  upserted : ℕ
deriving DecidableEq, Repr

/-- Does some stored document match the id filter? -/
def existsId (coll : List PredDoc) (k : String) : Bool :=
  coll.any (fun d => d.id_alumno = k)

/-- Mongo `bulk_write` of a list of `UpdateOne(filter, $set, upsert=True)`
operations, tracking Mongo's `modified_count` (matched and actually changed)
and the number of upserted documents. -/
def bulkWrite (store : List PredDoc)
    (ops : List (String × List (String × String))) :
    List PredDoc × ℕ × ℕ :=
  ops.foldl
    (fun acc op =>
      let st := acc.1
      let st' := updateOneUpsert st op.1 op.2
      if existsId st op.1 then
        (st', acc.2.1 + (if st' = st then 0 else 1), acc.2.2)
      else
        (st', acc.2.1, acc.2.2 + 1))
    (store, 0, 0)

/-- Endpoint `predict_batch(save=True)` (main.py lines 243-275): classify each survey
inside a `try`, skipping failures via `continue`; bulk-upsert the successes
keyed by `id_alumno`; report processed / modified / upserted counts.
`predict` yields, per survey, the student id and the `$set` payload, or
`none` when `_predict_single_doc` raised. -/
def predict_batch {α : Type} (encuestas : List α)
    (predict : α → Option (String × List (String × String)))
    (store : List PredDoc) : BatchSummary × List PredDoc :=
  let updates := encuestas.filterMap predict
  let res := bulkWrite store updates
  (⟨updates.length, res.2.1, res.2.2⟩, res.1)

/-! ## Single-record scoring endpoint (`predict_from_db`, main.py 203-215) -/

/-- A raised Python exception relevant to `predict_from_db`. -/
inductive PyExc where
  | httpExc (status : ℕ) (detail : String)
  | runtimeError (msg : String)
deriving DecidableEq, Repr

/-- Python `str(e)`: Starlette's `HTTPException.__str__` renders
`"{status_code}: {detail}"`; `RuntimeError` renders its message. -/
def strOfExc : PyExc → String
  | .httpExc s d => s!"{s}: {d}"
  | .runtimeError m => m

/-- Endpoint `predict_from_db` (main.py lines 203-215).  The missing-key check runs
before the `try`; everything inside the `try` — including the
`HTTPException(404)` raised for a missing survey — is caught by
`except Exception` and re-raised as `HTTPException(500, str(e))`. -/
def predict_from_db {α β : Type} (payload : List (String × String))
    (findEnc : String → Option α) (predictDoc : α → Except PyExc β) :
    Except (ℕ × String) β :=
  match payload.lookup "id_alumno" with
  | none => .error (400, "Falta id_alumno")
  | some idA =>
    let body : Except PyExc β :=
      match findEnc idA with
      | none => .error (.httpExc 404 "Encuesta no encontrada")
      | some enc => predictDoc enc
    match body with
    | .ok r => .ok r
    | .error e => .error (500, strOfExc e)

/-! ## Survey selection (`predecir_por_matricula`, prediccion_alumno.py
lines 137-147) -/

/-- A stored survey: its Mongo `_id` (monotone in insertion order) and its
payload. -/
structure Encuesta where
  oid : ℕ
  datos : String
deriving DecidableEq, Repr

/-- Mongo `.sort("_id", 1)`: ascending, stable sort by `_id`. -/
def sortById (l : List Encuesta) : List Encuesta :=
  List.insertionSort (fun a b => a.oid ≤ b.oid) l

/-- Selection `ultima = encuestas[-1]` after the ascending sort. -/
def seleccionarUltima (l : List Encuesta) : Option Encuesta :=
  (sortById l).getLast?

/-- The classification pipeline applied to the student's surveys: only the
selected survey is fed to `preparar_una_encuesta` and the model. -/
def prediccionDeEncuestas {β : Type} (l : List Encuesta) (f : Encuesta → β) :
    Option β :=
  (seleccionarUltima l).map f

instance : IsTotal Encuesta (fun a b => a.oid ≤ b.oid) :=
  ⟨fun a b => Nat.le_total a.oid b.oid⟩

instance : IsTrans Encuesta (fun a b => a.oid ≤ b.oid) :=
  ⟨fun _ _ _ => Nat.le_trans⟩

/-- A concrete per-survey classifier for closed instances: survey "good"
classifies to student "S1", every other survey fails classification. -/
def predictEx : String → Option (String × List (String × String)) :=
  fun d => if d = "good" then some ("S1", [("riesgo", "85")]) else none

/-! ## Theorems -/

/-- C1: the four-band tier mapping assigns High when `risk_percentage ≥ 80`,
Medium-High on `[60, 80)`, Medium-Low on `[40, 60)` and Low below `40`, every
boundary belonging to the higher band; `79.99` maps to Medium-High, `80.00`
to High, and identical inputs yield identical tier/motive/recommendation
triples. -/
theorem c1_four_band_thresholds :
    (∀ p : ℚ,
      (80 ≤ p → tierOf p = .high) ∧
      (60 ≤ p → p < 80 → tierOf p = .mediumHigh) ∧
      (40 ≤ p → p < 60 → tierOf p = .mediumLow) ∧
      (p < 40 → tierOf p = .low)) ∧
    tierOf (7999/100) = .mediumHigh ∧ tierOf 80 = .high ∧
    (∀ p q : ℚ, p = q →
      (tierOf p, motivoRecomendacion p) = (tierOf q, motivoRecomendacion q)) := by
  refine ⟨fun p => ⟨?_, ?_, ?_, ?_⟩, by norm_num [tierOf], by norm_num [tierOf],
    fun p q h => by rw [h]⟩
  · intro h; simp only [tierOf]; rw [if_pos h]
  · intro h1 h2; simp only [tierOf]
    rw [if_neg (by exact not_le.mpr h2), if_pos h1]
  · intro h1 h2; simp only [tierOf]
    rw [if_neg (by exact not_le.mpr (by linarith)), if_neg (by exact not_le.mpr h2),
      if_pos h1]
  · intro h; simp only [tierOf]
    rw [if_neg (by exact not_le.mpr (by linarith)),
      if_neg (by exact not_le.mpr (by linarith)), if_neg (by exact not_le.mpr h)]

/-- Witness for C1 at concrete percentages in each band. -/
theorem c1_four_band_thresholds_witness :
    tierOf 85 = .high ∧ tierOf 65 = .mediumHigh ∧ tierOf 45 = .mediumLow ∧
      tierOf 5 = .low :=
  ⟨(c1_four_band_thresholds.1 85).1 (by norm_num),
   (c1_four_band_thresholds.1 65).2.1 (by norm_num) (by norm_num),
   (c1_four_band_thresholds.1 45).2.2.1 (by norm_num) (by norm_num),
   (c1_four_band_thresholds.1 5).2.2.2 (by norm_num)⟩

/-- C5: `risk_percentage` is the classifier probability times 100, rounded to
two decimal places; probability `0.05` yields `5.0`, tier Low and the
no-apparent-risk motive, and probability `0.85` yields `85.0` and tier
High. -/
theorem c5_risk_percentage :
    (∀ p : ℚ, (clasificar p).1 = round2 (p * 100)) ∧
    clasificar (1/20) =
      (5, .low, "Sin riesgo aparente", "Mantener seguimiento regular") ∧
    (clasificar (17/20)).1 = 85 ∧ (clasificar (17/20)).2.1 = .high := by
  refine ⟨fun p => rfl, ?_, ?_, ?_⟩ <;>
    norm_num [clasificar, riesgoPct, round2, roundHalfEven, tierOf,
      motivoRecomendacion]

/-- With a well-shaped (dict or absent) section, the `.get` chain yields the
section's entries without raising. -/
lemma asDict_getSection (doc : Document) (k : String)
    (h : dictShaped doc k = true) :
    asDict (getSection doc k) = .ok (sectionEntries doc k) := by
  unfold dictShaped at h
  unfold getSection sectionEntries
  cases hl : doc.lookup k with
  | none => simp [hl, asDict]
  | some v =>
    cases v with
    | dict m => simp [hl, asDict]
    | scalar s => rw [hl] at h; simp at h

/-- C2 (amended): for every document whose three section keys, when present,
hold dict values, `_normalize_document_for_model` raises no exception and
returns a record in which each of the 11 schema keys is present and carries
the section field's value, `null` when the section or field is absent.  The
claim's stronger version — totality over sections of arbitrary type — is
refuted by `c2_nondict_section_raises`. -/
theorem c2_normalize_schema_total (doc : Document)
    (h1 : dictShaped doc "aspectos_socioeconomicos" = true)
    (h2 : dictShaped doc "condiciones_salud" = true)
    (h3 : dictShaped doc "analisis_academico" = true) :
    ∃ rec, normalize_document_for_model doc = Except.ok rec ∧
      (∀ e ∈ esquema, rec.lookup e.1 =
        some (SecVal.scalar (dictGet (sectionEntries doc e.2.1) e.2.2))) ∧
      (∀ e ∈ esquema, (sectionEntries doc e.2.1).lookup e.2.2 = none →
        rec.lookup e.1 = some (SecVal.scalar Scalar.null)) := by
  rw [normalize_document_for_model, asDict_getSection _ _ h1,
    asDict_getSection _ _ h2, asDict_getSection _ _ h3]
  refine ⟨_, rfl, ?_, ?_⟩
  · intro e he
    simp only [esquema, List.mem_cons, List.not_mem_nil, or_false] at he
    rcases he with rfl|rfl|rfl|rfl|rfl|rfl|rfl|rfl|rfl|rfl|rfl <;> rfl
  · intro e he hnone
    simp only [esquema, List.mem_cons, List.not_mem_nil, or_false] at he
    rcases he with rfl|rfl|rfl|rfl|rfl|rfl|rfl|rfl|rfl|rfl|rfl <;>
      · show some (SecVal.scalar (dictGet _ _)) = _
        rw [dictGet, hnone]
        rfl

/-- Witness for C2 at a document missing two sections entirely and having a
partial academic section. -/
theorem c2_normalize_schema_total_witness :
    ∃ rec, normalize_document_for_model
        [("analisis_academico", SecVal.dict [("promedio_previo", Scalar.int 9)])] =
        Except.ok rec ∧
      (∀ e ∈ esquema, rec.lookup e.1 =
        some (SecVal.scalar (dictGet (sectionEntries
          [("analisis_academico",
            SecVal.dict [("promedio_previo", Scalar.int 9)])] e.2.1) e.2.2))) ∧
      (∀ e ∈ esquema, (sectionEntries
          [("analisis_academico",
            SecVal.dict [("promedio_previo", Scalar.int 9)])] e.2.1).lookup
            e.2.2 = none →
        rec.lookup e.1 = some (SecVal.scalar Scalar.null)) :=
  c2_normalize_schema_total
    [("analisis_academico", SecVal.dict [("promedio_previo", Scalar.int 9)])]
    rfl rfl rfl

/-- Counterexample to C2 as stated: a document whose `condiciones_salud` key
holds `None` (a non-dict value) makes the normalizer raise `AttributeError`
instead of returning a record. -/
theorem c2_nondict_section_raises :
    normalize_document_for_model
        [("condiciones_salud", SecVal.scalar Scalar.null)] =
      Except.error "AttributeError" := by rfl

/-- A value that is not in a list has no index in it. -/
lemma indexOf?_eq_none_of_not_mem {l : List String} {a : String}
    (ha : a ∉ l) : l.indexOf? a = none := by
  rw [List.indexOf?_eq_none_iff]
  intro x hx hbeq
  rw [beq_iff_eq] at hbeq
  exact ha (hbeq ▸ hx)

/-- A member of a list has an index in it. -/
lemma exists_indexOf?_of_mem {l : List String} {a : String}
    (ha : a ∈ l) : ∃ i, l.indexOf? a = some i := by
  cases hidx : l.indexOf? a with
  | some i => exact ⟨i, rfl⟩
  | none =>
    rw [List.indexOf?_eq_none_iff] at hidx
    exact absurd ha (fun hmem => hidx a hmem (by simp))

/-- C3 (amended): both encoder applications are deterministic and never raise
on a null or unseen value, but their fallbacks differ.  In
`preparar_una_encuesta` (prediccion_alumno.py), a null or unseen value with a
nonempty fitted vocabulary yields the code of the `"NA"` placeholder when one
was fitted, else the code of the first class (which is `0`).  In
`_prepare_X_from_document` (main.py), any unseen value yields `0`
unconditionally — even when an `"NA"` placeholder exists, as
`c3_main_ignores_placeholder` shows. -/
theorem c3_fallback_codes (classes : List String) (raw : Option String) :
    (classes ≠ [] →
      (raw = none ∨ ∀ s, raw = some s → classes.contains s = false) →
      encodePA classes raw = .ok (fallbackSpec classes)) ∧
    (classes.contains (match raw with | some s => s | none => "None") = false →
      encodeMain classes raw = 0) := by
  refine ⟨?_, ?_⟩
  · intro hne hnu
    obtain ⟨c, t, rfl⟩ := List.exists_cons_of_ne_nil hne
    have hcase : raw = none ∨ ∃ s, raw = some s ∧ s ∉ c :: t := by
      rcases hnu with rfl | h
      · exact Or.inl rfl
      · cases raw with
        | none => exact Or.inl rfl
        | some s => exact Or.inr ⟨s, rfl, by simpa using h s rfl⟩
    rcases hcase with rfl | ⟨s, rfl, hs⟩
    · by_cases hNA : "NA" ∈ c :: t
      · obtain ⟨i, hi⟩ := exists_indexOf?_of_mem hNA
        simp [encodePA, leTransform, fallbackSpec, hNA, hi]
      · have hNAidx := indexOf?_eq_none_of_not_mem hNA
        simp [encodePA, leTransform, fallbackSpec, hNA, hNAidx,
          List.indexOf?_cons]
    · by_cases hNA : "NA" ∈ c :: t
      · obtain ⟨i, hi⟩ := exists_indexOf?_of_mem hNA
        simp [encodePA, leTransform, fallbackSpec, hs, hNA, hi]
      · have hNAidx := indexOf?_eq_none_of_not_mem hNA
        simp [encodePA, leTransform, fallbackSpec, hs, hNA, hNAidx,
          List.indexOf?_cons]
  · cases raw with
    | none =>
      intro hmain
      have hm : "None" ∉ classes := by simpa using hmain
      simp [encodeMain, leTransform, indexOf?_eq_none_of_not_mem hm]
    | some s =>
      intro hmain
      have hm : s ∉ classes := by simpa using hmain
      simp [encodeMain, leTransform, indexOf?_eq_none_of_not_mem hm]

/-- Witness for C3 on a vocabulary that trained the `"NA"` placeholder,
exercised both at a null input and at an unseen value, plus the main.py
fallback at the unseen value. -/
theorem c3_fallback_codes_witness :
    encodePA ["A", "NA"] none = .ok (fallbackSpec ["A", "NA"]) ∧
    encodePA ["A", "NA"] (some "Z") = .ok (fallbackSpec ["A", "NA"]) ∧
    encodeMain ["A", "NA"] (some "Z") = 0 :=
  ⟨(c3_fallback_codes ["A", "NA"] none).1 (by decide) (Or.inl rfl),
   (c3_fallback_codes ["A", "NA"] (some "Z")).1 (by decide)
     (Or.inr (fun s hs => by cases hs; decide)),
   (c3_fallback_codes ["A", "NA"] (some "Z")).2 (by decide)⟩

/-- Counterexample to C3 as stated: with fitted vocabulary
`["A", "B", "NA"]` — which trained the `"NA"` unknown placeholder at code
`2` — the main.py encoder application maps the unseen value `"Z"` to `0`,
not to the placeholder's code the claim promises. -/
theorem c3_main_ignores_placeholder :
    encodeMain ["A", "B", "NA"] (some "Z") = 0 ∧
    fallbackSpec ["A", "B", "NA"] = 2 ∧
    encodeMain ["A", "B", "NA"] (some "Z") ≠ fallbackSpec ["A", "B", "NA"] := by
  decide

/-- Extending with zero columns never changes an existing binding. -/
lemma lookup_extendCols_isSome (cols : List String) :
    ∀ (rec : List (String × ℤ)) (k : String), (rec.lookup k).isSome →
      (extendCols rec cols).lookup k = rec.lookup k := by
  induction cols with
  | nil => intro rec k _; rfl
  | cons c cs ih =>
    intro rec k h
    simp only [extendCols]
    by_cases hc : (rec.lookup c).isSome
    · rw [if_pos hc]; exact ih rec k h
    · rw [if_neg hc]
      have key : ((rec ++ [(c, 0)]).lookup k) = rec.lookup k := by
        rw [List.lookup_append]
        obtain ⟨v, hv⟩ := Option.isSome_iff_exists.mp h
        rw [hv]
        rfl
      rw [ih _ k (by rw [key]; exact h), key]

/-- After extension, every expected column resolves to the record's value
when present and to `0` otherwise. -/
lemma lookup_extendCols_mem (cols : List String) :
    ∀ (rec : List (String × ℤ)) (k : String), k ∈ cols →
      (extendCols rec cols).lookup k = some ((rec.lookup k).getD 0) := by
  induction cols with
  | nil => intro rec k h; exact absurd h (List.not_mem_nil k)
  | cons c cs ih =>
    intro rec k hk
    simp only [extendCols]
    by_cases hc : (rec.lookup c).isSome
    · rw [if_pos hc]
      rcases List.mem_cons.mp hk with rfl | hk'
      · rw [lookup_extendCols_isSome cs rec k hc]
        obtain ⟨v, hv⟩ := Option.isSome_iff_exists.mp hc
        rw [hv]
        rfl
      · exact ih rec k hk'
    · rw [if_neg hc]
      rcases List.mem_cons.mp hk with rfl | hk'
      · have hnone : rec.lookup k = none := Option.not_isSome_iff_eq_none.mp hc
        have key : ((rec ++ [(k, 0)]).lookup k) = some 0 := by
          rw [List.lookup_append, hnone]
          simp
        rw [lookup_extendCols_isSome cs _ k (by rw [key]; rfl), key, hnone]
        rfl
      · rw [ih _ k hk']
        congr 1
        rw [List.lookup_append]
        cases hrk : rec.lookup k with
        | some v => rfl
        | none => cases hkc : (k == c) <;> simp [List.lookup_cons, hkc]

/-- C4: the aligner returns exactly the expected columns in order, each
taking its value from the record when present and `0` otherwise; extra record
keys are dropped, and length and column order equal `expected_columns` for
every record shape. -/
theorem c4_align (rec : List (String × ℤ)) (cols : List String) :
    alignColumns rec cols = cols.map (fun c => (c, (rec.lookup c).getD 0)) ∧
    (alignColumns rec cols).map Prod.fst = cols ∧
    (alignColumns rec cols).length = cols.length := by
  have hmain : alignColumns rec cols =
      cols.map (fun c => (c, (rec.lookup c).getD 0)) := by
    unfold alignColumns projectCols
    apply List.map_congr_left
    intro c hc
    rw [lookup_extendCols_mem cols rec c hc]
    rfl
  refine ⟨hmain, ?_, ?_⟩ <;> rw [hmain]
  · rw [List.map_map]
    exact List.map_id'' (fun _ => rfl) cols
  · simp

/-- C6 (amended): the literal mapping applied before the encoders is
exact-match only.  In main.py exactly the strings `"Sí"` and `"Si"` map to
`1`; in prediccion_alumno.py exactly `"Sí"` does; every other value,
including `null` and other casings of sí/si, maps to `0`.  The claim's
case- and accent-tolerance is refuted by
`c6_lowercase_si_not_affirmative`. -/
theorem c6_literal_si_mapping : ∀ v : Option String,
    mapSiNo siNoDictMain v = (if v = some "Sí" ∨ v = some "Si" then 1 else 0) ∧
    mapSiNo siNoDictPA v = (if v = some "Sí" then 1 else 0) := by
  intro v
  cases v with
  | none => exact ⟨rfl, rfl⟩
  | some s =>
    constructor
    · by_cases h1 : s = "Sí"
      · subst h1; simp [mapSiNo, siNoDictMain, List.lookup_cons]
      · by_cases h2 : s = "Si"
        · subst h2; simp [mapSiNo, siNoDictMain, List.lookup_cons, h1]
        · by_cases h3 : s = "No"
          · subst h3; simp [mapSiNo, siNoDictMain, List.lookup_cons, h1, h2]
          · have b1 : (s == "Sí") = false := beq_eq_false_iff_ne.mpr h1
            have b2 : (s == "Si") = false := beq_eq_false_iff_ne.mpr h2
            have b3 : (s == "No") = false := beq_eq_false_iff_ne.mpr h3
            simp [mapSiNo, siNoDictMain, List.lookup_cons, b1, b2, b3, h1, h2]
    · by_cases h1 : s = "Sí"
      · subst h1; simp [mapSiNo, siNoDictPA, List.lookup_cons]
      · by_cases h3 : s = "No"
        · subst h3; simp [mapSiNo, siNoDictPA, List.lookup_cons, h1]
        · have b1 : (s == "Sí") = false := beq_eq_false_iff_ne.mpr h1
          have b3 : (s == "No") = false := beq_eq_false_iff_ne.mpr h3
          simp [mapSiNo, siNoDictPA, List.lookup_cons, b1, b3, h1]

/-- Counterexample to C6 as stated: the lowercase casing `"si"` and the
uppercase `"SI"` — affirmative under the claimed case-tolerant mapping — map
to `0` in main.py, and even the exact string `"Si"` maps to `0` in
prediccion_alumno.py. -/
theorem c6_lowercase_si_not_affirmative :
    mapSiNo siNoDictMain (some "si") = 0 ∧
    mapSiNo siNoDictMain (some "SI") = 0 ∧
    mapSiNo siNoDictPA (some "Si") = 0 := by decide

/-- Setting a field makes it readable back. -/
lemma lookup_setKey_self (f : List (String × String)) (k v : String) :
    (setKey f k v).lookup k = some v := by
  induction f with
  | nil => simp [setKey]
  | cons p t ih =>
    obtain ⟨k', v'⟩ := p
    by_cases h : k' = k
    · subst h; simp [setKey]
    · have hb : (k == k') = false := beq_eq_false_iff_ne.mpr (Ne.symm h)
      simp [setKey, h, List.lookup_cons, hb, ih]

/-- Setting one field leaves the others untouched. -/
lemma lookup_setKey_ne (f : List (String × String)) (k k' v' : String)
    (h : k ≠ k') : (setKey f k' v').lookup k = f.lookup k := by
  have hb : (k == k') = false := beq_eq_false_iff_ne.mpr h
  induction f with
  | nil => simp [setKey, List.lookup_cons, hb]
  | cons p t ih =>
    obtain ⟨a, b⟩ := p
    by_cases ha : a = k'
    · subst ha
      simp [setKey, List.lookup_cons, hb]
    · simp [setKey, ha, List.lookup_cons, ih]

/-- Setting a field to the value it already has is a no-op. -/
lemma setKey_lookup_eq (f : List (String × String)) (k v : String)
    (h : f.lookup k = some v) : setKey f k v = f := by
  induction f with
  | nil => simp at h
  | cons p t ih =>
    obtain ⟨a, b⟩ := p
    by_cases ha : a = k
    · subst ha
      rw [List.lookup_cons_self] at h
      cases h
      simp [setKey]
    · have hb : (k == a) = false := beq_eq_false_iff_ne.mpr (Ne.symm ha)
      rw [List.lookup_cons] at h
      rw [hb] at h
      simp [setKey, ha, ih h]

/-- A `$set` leaves fields outside its payload untouched. -/
lemma lookup_mongoSet_not_mem (p : List (String × String))
    (g : List (String × String)) (k : String) (h : k ∉ p.map Prod.fst) :
    (mongoSet g p).lookup k = g.lookup k := by
  induction p generalizing g with
  | nil => rfl
  | cons ab t ih =>
    obtain ⟨a, b⟩ := ab
    simp only [List.map_cons, List.mem_cons, not_or] at h
    show (mongoSet (setKey g a b) t).lookup k = _
    rw [ih _ h.2, lookup_setKey_ne _ _ _ _ h.1]

/-- After a `$set` with duplicate-free payload keys, every payload field
reads back its payload value. -/
lemma lookup_mongoSet_mem (p : List (String × String))
    (g : List (String × String)) (hnodup : (p.map Prod.fst).Nodup) :
    ∀ kv ∈ p, (mongoSet g p).lookup kv.1 = some kv.2 := by
  induction p generalizing g with
  | nil => intro kv h; exact absurd h (List.not_mem_nil kv)
  | cons ab t ih =>
    obtain ⟨a, b⟩ := ab
    rw [List.map_cons, List.nodup_cons] at hnodup
    intro kv hkv
    rcases List.mem_cons.mp hkv with rfl | hkv'
    · show (mongoSet (setKey g a b) t).lookup a = some b
      rw [lookup_mongoSet_not_mem _ _ _ hnodup.1, lookup_setKey_self]
    · exact ih (setKey g a b) hnodup.2 kv hkv'

/-- A `$set` whose payload already agrees with the document is a no-op. -/
lemma mongoSet_eq_self (p : List (String × String))
    (g : List (String × String))
    (h : ∀ kv ∈ p, g.lookup kv.1 = some kv.2) : mongoSet g p = g := by
  induction p with
  | nil => rfl
  | cons ab t ih =>
    obtain ⟨a, b⟩ := ab
    show mongoSet (setKey g a b) t = g
    rw [setKey_lookup_eq g a b (h (a, b) (List.mem_cons_self _ _))]
    exact ih (fun kv hkv => h kv (List.mem_cons_of_mem _ hkv))

/-- Applying the same `$set` twice equals applying it once. -/
lemma mongoSet_idem (p : List (String × String))
    (g : List (String × String)) (hnodup : (p.map Prod.fst).Nodup) :
    mongoSet (mongoSet g p) p = mongoSet g p :=
  mongoSet_eq_self p _ (lookup_mongoSet_mem p g hnodup)

/-- Replaying the same upsert leaves the collection unchanged. -/
lemma updateOneUpsert_idem (coll : List PredDoc) (k : String)
    (p : List (String × String)) (hnodup : (p.map Prod.fst).Nodup) :
    updateOneUpsert (updateOneUpsert coll k p) k p =
      updateOneUpsert coll k p := by
  induction coll with
  | nil => simp [updateOneUpsert, mongoSet_idem _ _ hnodup]
  | cons d ds ih =>
    by_cases hd : d.id_alumno = k
    · simp [updateOneUpsert, hd, mongoSet_idem _ _ hnodup]
    · simp [updateOneUpsert, hd, ih]

/-- An upsert keeps the per-student record count, or creates the first
record. -/
lemma countId_updateOneUpsert (coll : List PredDoc) (k : String)
    (p : List (String × String)) :
    countId (updateOneUpsert coll k p) k =
      if existsId coll k then countId coll k else countId coll k + 1 := by
  induction coll with
  | nil => simp [updateOneUpsert, countId, existsId]
  | cons d ds ih =>
    by_cases hd : d.id_alumno = k
    · simp [updateOneUpsert, countId, existsId, hd]
    · simp only [updateOneUpsert, countId, existsId] at *
      simp [hd, ih]

/-- A student id matches some stored document iff its count is positive. -/
lemma existsId_iff_one_le_countId (coll : List PredDoc) (k : String) :
    existsId coll k = true ↔ 1 ≤ countId coll k := by
  induction coll with
  | nil => simp [existsId, countId]
  | cons d ds ih =>
    by_cases hd : d.id_alumno = k
    · simp [existsId, countId, hd]
    · rw [show existsId (d :: ds) k = existsId ds k from by simp [existsId, hd],
        show countId (d :: ds) k = countId ds k from by simp [countId, hd]]
      exact ih

/-- C7: the synchronizer issues one insert-or-replace operation keyed by the
student id; starting from a store with at most one record for that student,
running the sync twice with an identical assessment payload leaves exactly
one stored record whose content is unchanged after the second run — replay
never creates a duplicate. -/
theorem c7_sync_idempotent (coll : List PredDoc) (k : String)
    (p : List (String × String)) (hnodup : (p.map Prod.fst).Nodup)
    (hcount : countId coll k ≤ 1) :
    updateOneUpsert (updateOneUpsert coll k p) k p =
      updateOneUpsert coll k p ∧
    countId (updateOneUpsert coll k p) k = 1 := by
  refine ⟨updateOneUpsert_idem coll k p hnodup, ?_⟩
  rw [countId_updateOneUpsert]
  by_cases hex : existsId coll k = true
  · rw [if_pos hex]
    have := (existsId_iff_one_le_countId coll k).mp hex
    omega
  · rw [if_neg (by simpa using hex)]
    have : ¬ 1 ≤ countId coll k := fun hc =>
      hex ((existsId_iff_one_le_countId coll k).mpr hc)
    omega

/-- Witness for C7: a fresh store, one student, replayed payload. -/
theorem c7_sync_idempotent_witness :
    updateOneUpsert (updateOneUpsert [] "s1" [("riesgo", "85"), ("motivo", "Alto")])
        "s1" [("riesgo", "85"), ("motivo", "Alto")] =
      updateOneUpsert [] "s1" [("riesgo", "85"), ("motivo", "Alto")] ∧
    countId (updateOneUpsert [] "s1" [("riesgo", "85"), ("motivo", "Alto")]) "s1" = 1 :=
  c7_sync_idempotent [] "s1" [("riesgo", "85"), ("motivo", "Alto")]
    (by decide) (by decide)

/-- C8 (amended): a record whose classification fails is skipped without
aborting the batch — the summary and final store are exactly those of the
batch without it — and the reported `predicciones_procesadas` counts the
successful records only.  The summary reports processed, modified and
upserted counts; that it names neither the submitted count nor the skipped
identities is shown by `c8_summary_names_no_skipped`. -/
theorem c8_batch_skips_failures {α : Type} (xs ys : List α) (bad : α)
    (predict : α → Option (String × List (String × String)))
    (store : List PredDoc) (hbad : predict bad = none) :
    predict_batch (xs ++ bad :: ys) predict store =
      predict_batch (xs ++ ys) predict store ∧
    (predict_batch (xs ++ bad :: ys) predict store).1.procesadas =
      ((xs ++ ys).filterMap predict).length := by
  have h : (xs ++ bad :: ys).filterMap predict =
      (xs ++ ys).filterMap predict := by
    simp [List.filterMap_append, List.filterMap_cons, hbad]
  exact ⟨by simp [predict_batch, h], by simp [predict_batch, h]⟩

/-- Witness for C8: a two-survey batch with one failing record. -/
theorem c8_batch_skips_failures_witness :
    predict_batch (["good"] ++ "bad1" :: []) predictEx [] =
      predict_batch (["good"] ++ []) predictEx [] ∧
    (predict_batch (["good"] ++ "bad1" :: []) predictEx []).1.procesadas =
      (((["good"] : List String) ++ []).filterMap predictEx).length :=
  c8_batch_skips_failures ["good"] [] "bad1" predictEx [] (by decide)

/-- Counterexample to C8 as stated: batches that differ only in the identity
of the failing record — or only in whether the failing record was submitted
at all — produce identical summaries and stores, so the summary reports
neither the submitted count nor the set of skipped identities. -/
theorem c8_summary_names_no_skipped :
    predict_batch ["good", "bad1"] predictEx [] =
      predict_batch ["good", "bad2"] predictEx [] ∧
    predict_batch ["good"] predictEx [] =
      predict_batch ["good", "bad1"] predictEx [] := by decide

/-- C9 (code bug): in `predict_from_db`, a missing request field is surfaced
distinctly as status 400, but the `HTTPException(404)` raised for a missing
survey is caught by the enclosing `except Exception` and re-raised as a
generic status-500 internal error — the not-found condition reaches the
caller as 500, not 404. -/
theorem c9_notfound_collapsed :
    predict_from_db [("id_alumno", "A1")] (fun _ => (none : Option String))
        (fun _ => (Except.error (PyExc.runtimeError "Modelo no cargado") :
          Except PyExc ℕ)) =
      Except.error (500, "404: Encuesta no encontrada") ∧
    predict_from_db ([] : List (String × String)) (fun _ => (none : Option String))
        (fun _ => (Except.error (PyExc.runtimeError "Modelo no cargado") :
          Except PyExc ℕ)) =
      Except.error (400, "Falta id_alumno") := ⟨rfl, rfl⟩

/-- Every element of a list sorted by ascending `oid` has `oid` at most that
of the last element. -/
lemma mem_oid_le_of_sorted_getLast :
    ∀ (s : List Encuesta), List.Sorted (fun a b => a.oid ≤ b.oid) s →
      ∀ e, s.getLast? = some e → ∀ a ∈ s, a.oid ≤ e.oid := by
  intro s
  induction s with
  | nil => intro _ e he; simp at he
  | cons x t ih =>
    intro hs e he a ha
    cases t with
    | nil =>
      simp only [List.getLast?_singleton, Option.some.injEq] at he
      rcases List.mem_singleton.mp (by simpa using ha) with rfl
      subst he
      exact le_refl _
    | cons y u =>
      rw [List.getLast?_cons_cons] at he
      have hmem : e ∈ y :: u := by
        obtain ⟨h', rfl⟩ := List.mem_getLast?_eq_getLast he
        exact List.getLast_mem h'
      rcases List.mem_cons.mp ha with rfl | ha'
      · exact (List.sorted_cons.mp hs).1 e hmem
      · exact ih (List.sorted_cons.mp hs).2 e he a ha'

/-- C10: with at least one stored survey, `predecir_por_matricula` selects
exactly the last element of the surveys sorted ascending by `_id` — a survey
of maximal `_id`, i.e. the newest-inserted — and the classification result
depends only on that survey, ignoring all earlier ones. -/
theorem c10_selects_newest (l : List Encuesta) (h : l ≠ []) :
    ∃ e, seleccionarUltima l = some e ∧ e ∈ l ∧ (∀ x ∈ l, x.oid ≤ e.oid) ∧
      (∀ (f : Encuesta → ℚ × Tier × String × String),
        prediccionDeEncuestas l f = some (f e)) := by
  have hperm := List.perm_insertionSort (fun a b => a.oid ≤ b.oid) l
  have hne : sortById l ≠ [] := by
    intro h0
    apply h
    have hlen := hperm.length_eq
    rw [show List.insertionSort (fun a b => a.oid ≤ b.oid) l = sortById l from rfl,
      h0] at hlen
    exact List.length_eq_zero.mp hlen.symm
  obtain ⟨e, he⟩ : ∃ e, (sortById l).getLast? = some e := by
    cases hl : (sortById l).getLast? with
    | some e => exact ⟨e, rfl⟩
    | none => rw [List.getLast?_eq_none_iff] at hl; exact absurd hl hne
  have hsorted : List.Sorted (fun a b => a.oid ≤ b.oid) (sortById l) :=
    List.sorted_insertionSort _ l
  refine ⟨e, he, ?_, ?_, ?_⟩
  · have : e ∈ sortById l := by
      obtain ⟨h', rfl⟩ := List.mem_getLast?_eq_getLast he
      exact List.getLast_mem h'
    simpa [sortById, List.mem_insertionSort] using this
  · intro x hx
    have hx' : x ∈ sortById l := by
      simp [sortById, List.mem_insertionSort, hx]
    exact mem_oid_le_of_sorted_getLast _ hsorted e he x hx'
  · intro f
    show ((sortById l).getLast?).map f = some (f e)
    rw [he]
    rfl

/-- Witness for C10 on three surveys inserted out of order. -/
theorem c10_selects_newest_witness :
    ∃ e, seleccionarUltima [⟨3, "a"⟩, ⟨1, "b"⟩, ⟨2, "c"⟩] = some e ∧
      e ∈ [(⟨3, "a"⟩ : Encuesta), ⟨1, "b"⟩, ⟨2, "c"⟩] ∧
      (∀ x ∈ [(⟨3, "a"⟩ : Encuesta), ⟨1, "b"⟩, ⟨2, "c"⟩], x.oid ≤ e.oid) ∧
      (∀ (f : Encuesta → ℚ × Tier × String × String),
        prediccionDeEncuestas [⟨3, "a"⟩, ⟨1, "b"⟩, ⟨2, "c"⟩] f = some (f e)) :=
  c10_selects_newest _ (by simp)

end FuturEd






